import Mathlib

/-!
Verification of the selective state-space layer in `lit_gpt/mamba_simple.py`
(class `Mamba`).

Shallow embedding conventions:
* Tensors indexed by channels use `Fin`; the time axis is indexed by `ℕ`
  together with an explicit length `L` (positions `t < L` are the real ones).
* The batch axis is dropped: every operation of the layer acts independently
  and identically on each batch row, so one row is modelled.
* Scalars live in an arbitrary commutative ring `F`; the pointwise nonlinear
  functions the source calls (`torch.exp`, `F.softplus`, `nn.SiLU`) are the
  fields of an `Act F` record.  For the analytic claims the record is
  instantiated at `ℝ` with the genuine functions (`realAct` below).
* In-place mutation of the caller-supplied cache tensors (`conv_state`,
  `ssm_state`, updated by `.copy_` in the source) is modelled by returning
  the new cache contents.
* The reference (in-repository) branches are embedded: `causal_conv1d_fn`,
  `causal_conv1d_update` and `selective_state_update` are optional external
  packages whose absence selects the reference code, which is the code under
  `src/`.  The body of `selective_scan_fn` is not under `src/` (it is imported
  from `.selective_scan_interface`); it is modelled from the spec, see
  `scanState`/`scanY`.
-/

/-- Pointwise activation functions used by the layer: `torch.exp`,
`torch.nn.functional.softplus` and `nn.SiLU` (the layer sets
`self.activation = "silu"`, `self.act = nn.SiLU()`). -/
structure Act (F : Type) where
  exp : F → F
  softplus : F → F
  silu : F → F

/-- Learned tensors of the `Mamba` layer (constructor, lines 84-137).
`in_proj.weight : (2E, D)` is split into its `x` block (first `E` rows) and
`z` block (last `E` rows), matching `xz.chunk(2)`; likewise
`x_proj.weight : (R+2N, E)` is split into its `dt`, `B` and `C` row blocks,
matching `torch.split`.  Optional biases (`bias=False` means the bias term is
absent, i.e. zero) are modelled as plain vectors. -/
structure MambaParams (F : Type) (D E N K R : ℕ) where
  in_proj_wx : Fin E → Fin D → F
  in_proj_wz : Fin E → Fin D → F
  in_proj_bx : Fin E → F
  in_proj_bz : Fin E → F
  conv1d_w : Fin E → Fin K → F
  conv1d_b : Fin E → F
  x_proj_wdt : Fin R → Fin E → F
  x_proj_wB : Fin N → Fin E → F
  x_proj_wC : Fin N → Fin E → F
  dt_proj_w : Fin E → Fin R → F
  dt_proj_b : Fin E → F
  A_log : Fin E → Fin N → F
  D_skip : Fin E → F
  out_proj_w : Fin D → Fin E → F
  out_proj_b : Fin D → F

/-- Configuration flags of the layer that the embedded claims exercise
(`jamba_norm`, `gmu_save` constructor arguments). -/
structure Flags where
  jambaNorm : Bool
  gmuSave : Bool

/-- Modelled from the spec: the normalization collaborators
(`FusedRMSNorm`, not under `src/`) applied to `dt`, `B`, `C` when
`jamba_norm` is set; the spec only fixes that each is a shape-preserving
tensor-to-tensor map (spec section 4.3 and section 6). -/
structure Norms (F : Type) (R N : ℕ) where
  norm_dt : (Fin R → F) → Fin R → F
  norm_B : (Fin N → F) → Fin N → F
  norm_C : (Fin N → F) → Fin N → F

/-- Error abstraction used by the spec (section 7) together with the Python
errors the constructor can actually raise: `ShapeError` models the `assert`
on the decode-step time dimension (line 315); `ConfigurationError` is the
construction-time validation error named by the spec (no code in `__init__`
defines or raises it); `ValueError` is the library error raised at line 86 by
the `nn.Conv1d` groups-positivity check when `groups = d_inner = 0`;
`ZeroDivisionError` is the Python error raised by `dt_rank ** -0.5` at
line 105 when the resolved rank is zero. -/
inductive MambaError where
  | shapeError
  | configurationError
  | valueError
  | zeroDivisionError
deriving DecidableEq

abbrev ConvState (F : Type) (E K : ℕ) := Fin E → Fin K → F

abbrev SsmState (F : Type) (E N : ℕ) := Fin E → Fin N → F

section Defs

variable {F : Type} [CommRing F] {D E N K R : ℕ}

/-- Line 164 and line 340: `A = -torch.exp(self.A_log.float())`. -/
def matA (p : MambaParams F D E N K R) (a : Act F) : Fin E → Fin N → F :=
  fun e n => -a.exp (p.A_log e n)

/-- Line 316-317 of `step`: the `x` half of `self.in_proj(hidden_states)`. -/
def step_x0 (p : MambaParams F D E N K R) (h : Fin D → F) : Fin E → F :=
  fun e => (∑ d, p.in_proj_wx e d * h d) + p.in_proj_bx e

/-- Line 316-317 of `step`: the `z` half of `self.in_proj(hidden_states)`. -/
def step_z0 (p : MambaParams F D E N K R) (h : Fin D → F) : Fin E → F :=
  fun e => (∑ d, p.in_proj_wz e d * h d) + p.in_proj_bz e

/-- Lines 321-322 of `step`: `conv_state.copy_(torch.roll(conv_state, -1))`
followed by `conv_state[:, :, -1] = x` — shift the ring buffer left by one
and write the new input into the last slot. -/
def conv_roll (cs : ConvState F E K) (x0 : Fin E → F) : ConvState F E K :=
  fun e k =>
    if k.1 = K - 1 then x0 e
    else cs e ⟨(k.1 + 1) % K, Nat.mod_lt _ (Nat.lt_of_le_of_lt (Nat.zero_le k.1) k.2)⟩

/-- Lines 323-326 of `step`: weighted sum of the buffered values against the
depthwise filter, plus the convolution bias, then the SiLU activation. -/
def step_conv_x (p : MambaParams F D E N K R) (a : Act F) (cs : ConvState F E K) :
    Fin E → F :=
  fun e => a.silu ((∑ k, cs e k * p.conv1d_w e k) + p.conv1d_b e)

/-- Convolved branch of `step` at input `h` with incoming buffer `cs`
(composition of lines 316-326). -/
def step_xa (p : MambaParams F D E N K R) (a : Act F) (h : Fin D → F)
    (cs : ConvState F E K) : Fin E → F :=
  step_conv_x p a (conv_roll cs (step_x0 p h))

/-- Lines 336-337 of `step`: the `dt` rows of `self.x_proj(x)` (no bias). -/
def step_dtraw (p : MambaParams F D E N K R) (xa : Fin E → F) : Fin R → F :=
  fun r => ∑ e, p.x_proj_wdt r e * xa e

/-- Lines 336-337 of `step`: the `B` rows of `self.x_proj(x)`. -/
def step_Bv (p : MambaParams F D E N K R) (xa : Fin E → F) : Fin N → F :=
  fun n => ∑ e, p.x_proj_wB n e * xa e

/-- Lines 336-337 of `step`: the `C` rows of `self.x_proj(x)`. -/
def step_Cv (p : MambaParams F D E N K R) (xa : Fin E → F) : Fin N → F :=
  fun n => ∑ e, p.x_proj_wC n e * xa e

/-- Line 339 of `step`: `dt = F.linear(dt, self.dt_proj.weight)` — the rank-R
pre-activation expanded to the inner width, without the bias. -/
def step_dtlin (p : MambaParams F D E N K R) (xa : Fin E → F) : Fin E → F :=
  fun e => ∑ r, p.dt_proj_w e r * step_dtraw p xa r

/-- Line 345 of `step`: `dt = F.softplus(dt + self.dt_proj.bias)` — the
realized strictly-positive step size. -/
def step_dts (p : MambaParams F D E N K R) (a : Act F) (xa : Fin E → F) :
    Fin E → F :=
  fun e => a.softplus (step_dtlin p xa e + p.dt_proj_b e)

/-- Lines 346-348 of `step`: `dA = exp(dt ⊗ A)`, `dB = dt ⊗ B`, and
`ssm_state.copy_(ssm_state * dA + x[:, :, None] * dB)`. -/
def step_ssm_new (p : MambaParams F D E N K R) (a : Act F) (ssm : SsmState F E N)
    (xa : Fin E → F) : SsmState F E N :=
  fun e n =>
    ssm e n * a.exp (step_dts p a xa e * matA p a e n)
      + xa e * (step_dts p a xa e * step_Bv p xa n)

/-- Lines 349-350 of `step`: `y = einsum("bdn,bn->bd", ssm_state, C)` plus the
skip term `self.D * x`. -/
def step_y (p : MambaParams F D E N K R) (ssm2 : SsmState F E N)
    (xa : Fin E → F) : Fin E → F :=
  fun e => (∑ n, ssm2 e n * step_Cv p xa n) + p.D_skip e * xa e

/-- Lines 351-357 of `step`: gate `y * self.act(z)` and final projection
`self.out_proj(y)`. -/
def step_out (p : MambaParams F D E N K R) (a : Act F) (h : Fin D → F)
    (cs : ConvState F E K) (ssm : SsmState F E N) : Fin D → F :=
  fun d =>
    (∑ e, p.out_proj_w d e *
      (step_y p (step_ssm_new p a ssm (step_xa p a h cs)) (step_xa p a h cs) e
        * a.silu (step_z0 p h e)))
      + p.out_proj_b d

/-- `Mamba.step` (lines 313-358), reference branches
(`causal_conv1d_update is None`, `selective_state_update is None`): returns
the output together with the new contents of the two cache tensors that the
source updates in place. -/
def stepRef (p : MambaParams F D E N K R) (a : Act F) (h : Fin D → F)
    (cs : ConvState F E K) (ssm : SsmState F E N) :
    (Fin D → F) × ConvState F E K × SsmState F E N :=
  (step_out p a h cs ssm,
   conv_roll cs (step_x0 p h),
   step_ssm_new p a ssm (step_xa p a h cs))

/-- `Mamba.step` with its shape guard (line 315:
`assert hidden_states.shape[1] == 1`).  The guard fires before any cache
mutation, so on failure the cache contents are returned unchanged. -/
def stepChecked (p : MambaParams F D E N K R) (a : Act F) (L : ℕ)
    (u : ℕ → Fin D → F) (cs : ConvState F E K) (ssm : SsmState F E N) :
    Except MambaError (Fin D → F) × ConvState F E K × SsmState F E N :=
  if L = 1 then
    (Except.ok (step_out p a (u 0) cs ssm),
     conv_roll cs (step_x0 p (u 0)),
     step_ssm_new p a ssm (step_xa p a (u 0) cs))
  else
    (Except.error MambaError.shapeError, cs, ssm)

/-- Cache contents after `t` sequential `step` calls on inputs
`u 0, …, u (t-1)`, starting from freshly allocated all-zero
buffers. -/
def stepStates (p : MambaParams F D E N K R) (a : Act F) (u : ℕ → Fin D → F) :
    ℕ → ConvState F E K × SsmState F E N
  | 0 => (fun _ _ => 0, fun _ _ => 0)
  | t + 1 =>
    ((stepRef p a (u t) (stepStates p a u t).1 (stepStates p a u t).2).2.1,
     (stepRef p a (u t) (stepStates p a u t).1 (stepStates p a u t).2).2.2)

/-- Output of the `(t+1)`-th sequential `step` call. -/
def stepOutSeq (p : MambaParams F D E N K R) (a : Act F) (u : ℕ → Fin D → F)
    (t : ℕ) : Fin D → F :=
  (stepRef p a (u t) (stepStates p a u t).1 (stepStates p a u t).2).1

/-- Lines 207-208 and 239-240 of `forward`: `x = x * mask.unsqueeze(1)` when a
validity mask is supplied (and the packed-kernel `use_cu_seqlen` mode is
off). -/
def maskApply (mask : Option (ℕ → F)) (v : ℕ → Fin E → F) : ℕ → Fin E → F :=
  match mask with
  | none => v
  | some m => fun t e => v t e * m t

/-- Lines 156-162 and 203 of `forward`: the `x` block of
`in_proj.weight @ hidden_states` plus the optional bias. -/
def fwd_xz_x (p : MambaParams F D E N K R) (u : ℕ → Fin D → F) :
    ℕ → Fin E → F :=
  fun t e => (∑ d, p.in_proj_wx e d * u t d) + p.in_proj_bx e

/-- Lines 156-162 and 203 of `forward`: the `z` block of
`in_proj.weight @ hidden_states` plus the optional bias. -/
def fwd_xz_z (p : MambaParams F D E N K R) (u : ℕ → Fin D → F) :
    ℕ → Fin E → F :=
  fun t e => (∑ d, p.in_proj_wz e d * u t d) + p.in_proj_bz e

/-- The expanded input branch after the first mask multiplication
(lines 203-210 of `forward`); this is also `ox`, the tensor the conv cache
update reads. -/
def fwd_x1 (p : MambaParams F D E N K R) (mask : Option (ℕ → F))
    (u : ℕ → Fin D → F) : ℕ → Fin E → F :=
  maskApply mask (fwd_xz_x p u)

/-- Line 212 of `forward` (reference branch, `causal_conv1d_fn is None`):
`x = self.act(self.conv1d(x)[..., :seqlen])`.  `nn.Conv1d` with
`padding = K-1`, truncated to the sequence length, is the causal depthwise
convolution: position `t` reads inputs `t-K+1 … t`, with zeros before the
start. -/
def fwd_conv (p : MambaParams F D E N K R) (a : Act F) (x1 : ℕ → Fin E → F) :
    ℕ → Fin E → F :=
  fun t e =>
    a.silu ((∑ k : Fin K,
      p.conv1d_w e k * (if K - 1 ≤ t + k.1 then x1 (t + k.1 - (K - 1)) e else 0))
        + p.conv1d_b e)

/-- The convolved branch after the second mask multiplication
(lines 239-240 of `forward`). -/
def fwd_x2 (p : MambaParams F D E N K R) (a : Act F) (mask : Option (ℕ → F))
    (u : ℕ → Fin D → F) : ℕ → Fin E → F :=
  maskApply mask (fwd_conv p a (fwd_x1 p mask u))

/-- Lines 245-246 of `forward`: the `dt` rows of `self.x_proj(x)`. -/
def fwd_dtraw (p : MambaParams F D E N K R) (x2 : ℕ → Fin E → F) :
    ℕ → Fin R → F :=
  fun t r => ∑ e, p.x_proj_wdt r e * x2 t e

/-- Lines 245-246 of `forward`: the `B` rows of `self.x_proj(x)`. -/
def fwd_B0 (p : MambaParams F D E N K R) (x2 : ℕ → Fin E → F) :
    ℕ → Fin N → F :=
  fun t n => ∑ e, p.x_proj_wB n e * x2 t e

/-- Lines 245-246 of `forward`: the `C` rows of `self.x_proj(x)`. -/
def fwd_C0 (p : MambaParams F D E N K R) (x2 : ℕ → Fin E → F) :
    ℕ → Fin N → F :=
  fun t n => ∑ e, p.x_proj_wC n e * x2 t e

/-- Lines 247-250 of `forward`: optional `jamba_norm` normalization of the
`dt` pre-activation. -/
def fwd_dtn (fl : Flags) (nm : Norms F R N) (dtraw : ℕ → Fin R → F) :
    ℕ → Fin R → F :=
  if fl.jambaNorm then fun t => nm.norm_dt (dtraw t) else dtraw

/-- Lines 247-250 of `forward`: optional `jamba_norm` normalization of `B`. -/
def fwd_Bn (fl : Flags) (nm : Norms F R N) (B0 : ℕ → Fin N → F) :
    ℕ → Fin N → F :=
  if fl.jambaNorm then fun t => nm.norm_B (B0 t) else B0

/-- Lines 247-250 of `forward`: optional `jamba_norm` normalization of `C`. -/
def fwd_Cn (fl : Flags) (nm : Norms F R N) (C0 : ℕ → Fin N → F) :
    ℕ → Fin N → F :=
  if fl.jambaNorm then fun t => nm.norm_C (C0 t) else C0

/-- Lines 251-252 of `forward`: `dt = self.dt_proj.weight @ dt.t()` (bias is
handed to the scan separately as `delta_bias`). -/
def fwd_dtlin (p : MambaParams F D E N K R) (dtn : ℕ → Fin R → F) :
    ℕ → Fin E → F :=
  fun t e => ∑ r, p.dt_proj_w e r * dtn t r

/-- Modelled from the spec: the `delta_bias`/`delta_softplus` handling inside
`selective_scan_fn` (the body of `selective_scan_fn` is imported from
`.selective_scan_interface` and is not under `src/`); spec section 4.4: the
realized step size is `softplus` of the pre-activation plus the bias. -/
def fwd_dts (p : MambaParams F D E N K R) (a : Act F) (dtlin : ℕ → Fin E → F) :
    ℕ → Fin E → F :=
  fun t e => a.softplus (dtlin t e + p.dt_proj_b e)

/-- Modelled from the spec: the state recurrence of `selective_scan_fn`
(not under `src/`), spec section 4.4:
`state_t = state_{t-1} * exp(Δ_t A) + x_t * (Δ_t B_t)` elementwise over
channel and state index, from a zero initial state.  `scanState … t` is the
state after the first `t` time steps. -/
def scanState (p : MambaParams F D E N K R) (a : Act F) (x2 : ℕ → Fin E → F)
    (dts : ℕ → Fin E → F) (Bs : ℕ → Fin N → F) : ℕ → SsmState F E N
  | 0 => fun _ _ => 0
  | t + 1 => fun e n =>
      scanState p a x2 dts Bs t e n * a.exp (dts t e * matA p a e n)
        + x2 t e * (dts t e * Bs t n)

/-- Modelled from the spec: the per-position output of `selective_scan_fn`
(not under `src/`), spec section 4.4:
`y_t = sum_over_state(state_t * C_t) + D * x_t`. -/
def scanY (p : MambaParams F D E N K R) (a : Act F) (x2 : ℕ → Fin E → F)
    (dts : ℕ → Fin E → F) (Bs Cs : ℕ → Fin N → F) : ℕ → Fin E → F :=
  fun t e => (∑ n, scanState p a x2 dts Bs (t + 1) e n * Cs t n)
    + p.D_skip e * x2 t e

/-- Modelled from the spec: `swiglu` from `.gated_memory_unit` (not under
`src/`); spec section 4.5: `gated_combine(gate, value) = value * silu(gate)`. -/
def swiglu (a : Act F) (g v : F) : F := v * a.silu g

/-- Realized step-size sequence of the `forward` reference path: composition
of lines 245-252 with the scan-side softplus. -/
def fwd_dtsFull (fl : Flags) (p : MambaParams F D E N K R) (a : Act F)
    (nm : Norms F R N) (mask : Option (ℕ → F)) (u : ℕ → Fin D → F) :
    ℕ → Fin E → F :=
  fwd_dts p a (fwd_dtlin p (fwd_dtn fl nm (fwd_dtraw p (fwd_x2 p a mask u))))

/-- Input-coupling sequence `B` of the `forward` reference path. -/
def fwd_BsFull (fl : Flags) (p : MambaParams F D E N K R) (a : Act F)
    (nm : Norms F R N) (mask : Option (ℕ → F)) (u : ℕ → Fin D → F) :
    ℕ → Fin N → F :=
  fwd_Bn fl nm (fwd_B0 p (fwd_x2 p a mask u))

/-- Output-coupling sequence `C` of the `forward` reference path. -/
def fwd_CsFull (fl : Flags) (p : MambaParams F D E N K R) (a : Act F)
    (nm : Norms F R N) (mask : Option (ℕ → F)) (u : ℕ → Fin D → F) :
    ℕ → Fin N → F :=
  fwd_Cn fl nm (fwd_C0 p (fwd_x2 p a mask u))

/-- Scan states of the `forward` reference path (the `last_state` copied into
`ssm_state` at line 305 is this at the sequence length). -/
def fwd_scan (fl : Flags) (p : MambaParams F D E N K R) (a : Act F)
    (nm : Norms F R N) (mask : Option (ℕ → F)) (u : ℕ → Fin D → F) :
    ℕ → SsmState F E N :=
  scanState p a (fwd_x2 p a mask u) (fwd_dtsFull fl p a nm mask u)
    (fwd_BsFull fl p a nm mask u)

/-- Pre-gate recurrence output sequence of the `forward` reference path. -/
def fwd_y (fl : Flags) (p : MambaParams F D E N K R) (a : Act F)
    (nm : Norms F R N) (mask : Option (ℕ → F)) (u : ℕ → Fin D → F) :
    ℕ → Fin E → F :=
  scanY p a (fwd_x2 p a mask u) (fwd_dtsFull fl p a nm mask u)
    (fwd_BsFull fl p a nm mask u) (fwd_CsFull fl p a nm mask u)

/-- Gated recurrence output: in the default path the gate `z` is handed to
`selective_scan_fn` (line 298) which applies `y * silu(z)`; with `gmu_save`
the scan runs ungated and `y = swiglu(z, y)` is applied after export
(lines 307-309).  Both produce `y * silu(z)`. -/
def fwd_ygated (fl : Flags) (p : MambaParams F D E N K R) (a : Act F)
    (nm : Norms F R N) (mask : Option (ℕ → F)) (u : ℕ → Fin D → F) :
    ℕ → Fin E → F :=
  fun t e =>
    if fl.gmuSave then swiglu a (fwd_xz_z p u t e) (fwd_y fl p a nm mask u t e)
    else fwd_y fl p a nm mask u t e * a.silu (fwd_xz_z p u t e)

/-- Line 310 of `forward`: `out = self.out_proj(y)`. -/
def fwd_out (fl : Flags) (p : MambaParams F D E N K R) (a : Act F)
    (nm : Norms F R N) (mask : Option (ℕ → F)) (u : ℕ → Fin D → F) :
    ℕ → Fin D → F :=
  fun t d => (∑ e, p.out_proj_w d e * fwd_ygated fl p a nm mask u t e)
    + p.out_proj_b d

/-- Line 238 of `forward`: `conv_state.copy_(F.pad(ox, (K - L, 0)))` — the
ring buffer is refilled with the last `K` pre-convolution inputs (zero padded
on the left when the sequence is shorter than the filter). -/
def fwd_conv_cache (p : MambaParams F D E N K R) (mask : Option (ℕ → F))
    (u : ℕ → Fin D → F) (L : ℕ) : ConvState F E K :=
  fun e k => if K ≤ k.1 + L then fwd_x1 p mask u (k.1 + L - K) e else 0

/-- Lines 307-308 of `forward`: the auxiliary pre-gate export produced only in
`gmu_save` mode. -/
def fwd_aux (fl : Flags) (p : MambaParams F D E N K R) (a : Act F)
    (nm : Norms F R N) (mask : Option (ℕ → F)) (u : ℕ → Fin D → F) :
    Option (ℕ → Fin E → F) :=
  if fl.gmuSave then some (fwd_y fl p a nm mask u) else none

end Defs

/-- Return value of `Mamba.forward`: the single-token cached decode path
returns a bare output tensor (line 153), every other call returns the pair
`(out, gmu_mems)` (line 311). -/
inductive FwdOut (F : Type) (D E : ℕ) where
  | single : (Fin D → F) → FwdOut F D E
  | pair : (ℕ → Fin D → F) → Option (ℕ → Fin E → F) → FwdOut F D E

/-- Output sequence carried by a `forward` result (a single-token result is
the constant single output). -/
def FwdOut.outSeq {F : Type} {D E : ℕ} : FwdOut F D E → ℕ → Fin D → F
  | single o => fun _ => o
  | pair o _ => o

section ForwardDef

variable {F : Type} [CommRing F] {D E N K R : ℕ}

/-- `Mamba.forward` (lines 139-311) in its in-repository reference branches:
`use_cu_seqlen = False`, `support_init_states = False`,
`causal_conv1d_fn is None` (reference convolution) and the spec-modelled
`selective_scan_fn`.  With a cache attached the fused fast path is disabled
(line 166 requires `inference_params is None`), so this is the executed
path.  A single-token call with a cache delegates to `step` (lines 148-153).
The returned `Option` holds the new cache contents (the source mutates them
in place); `none` means no cache was attached and none is written. -/
def forward (fl : Flags) (p : MambaParams F D E N K R) (a : Act F)
    (nm : Norms F R N) (L : ℕ) (mask : Option (ℕ → F)) (u : ℕ → Fin D → F)
    (cache : Option (ConvState F E K × SsmState F E N)) :
    FwdOut F D E × Option (ConvState F E K × SsmState F E N) :=
  match cache with
  | some (cs, ssm) =>
    if L = 1 then
      (FwdOut.single (step_out p a (u 0) cs ssm),
       some (conv_roll cs (step_x0 p (u 0)),
             step_ssm_new p a ssm (step_xa p a (u 0) cs)))
    else
      (FwdOut.pair (fwd_out fl p a nm mask u) (fwd_aux fl p a nm mask u),
       some (fwd_conv_cache p mask u L, fwd_scan fl p a nm mask u L))
  | none =>
    (FwdOut.pair (fwd_out fl p a nm mask u) (fwd_aux fl p a nm mask u), none)

end ForwardDef

section ConvPath

variable {F : Type} [CommRing F] {D E N K R : ℕ}

/-- Ring buffer contents after feeding the single-step convolution path of
`step` (lines 321-322) the inputs `v 0, …, v (t-1)` one at a time, starting
from an all-zero buffer. -/
def convStatefulBuf (v : ℕ → Fin E → F) : ℕ → ConvState F E K
  | 0 => fun _ _ => 0
  | t + 1 => conv_roll (convStatefulBuf v t) (v t)

/-- Output of the stateful convolution path of `step` (lines 321-326) at the
`(t+1)`-th fed input. -/
def convStatefulOut (p : MambaParams F D E N K R) (a : Act F)
    (v : ℕ → Fin E → F) (t : ℕ) : Fin E → F :=
  step_conv_x p a (convStatefulBuf v (t + 1))

end ConvPath

/-- Constructor arguments of `Mamba.__init__` that govern shapes
(`d_model`, `d_state`, `d_conv`, `expand`, `dt_rank`; `dt_rank = none`
models the string `"auto"`). -/
structure MambaCfg where
  dModel : ℕ
  dState : ℕ
  dConv : ℕ
  expandF : ℕ
  dtRank : Option ℕ
deriving DecidableEq

/-- Shape data computed by `Mamba.__init__` (lines 58-102). -/
structure LayerShapes where
  dInner : ℕ
  dtRankR : ℕ
  inProjOut : ℕ
  xProjOut : ℕ
  convKernel : ℕ
deriving DecidableEq

/-- Line 63: `self.dt_rank = math.ceil(self.d_model / 16) if dt_rank == "auto"
else dt_rank`. -/
def resolveDtRank (cfg : MambaCfg) : ℕ :=
  cfg.dtRank.getD ((cfg.dModel + 15) / 16)

/-- `Mamba.__init__` (lines 34-137), restricted to its shape computations and
its failure behaviour.  The constructor contains no width validation of its
own — no branch in `__init__` raises any error for non-positive `d_state`,
`d_conv` or `dt_rank`.  The construction-time failures, in source order, are:
first, line 86, where `nn.Conv1d(..., groups=self.d_inner, ...)` raises the
library `ValueError` of the groups-positivity check whenever
`d_inner = int(expand * d_model) = 0` (this also covers `d_model = 0` with
`dt_rank = "auto"`: line 86 runs before line 105); second, line 105, where
`self.dt_rank ** -0.5` raises Python `ZeroDivisionError` when `d_inner` is
nonzero but the resolved rank is zero.  `d_state` never reaches a failing
expression (`arange(1, d_state + 1)` is empty at zero), and `nn.Conv1d`
stores the kernel width at construction without a positivity check of its
own, so neither selects an error branch here. -/
def mambaInitShapes (cfg : MambaCfg) : Except MambaError LayerShapes :=
  if cfg.expandF * cfg.dModel = 0 then Except.error MambaError.valueError
  else if resolveDtRank cfg = 0 then Except.error MambaError.zeroDivisionError
  else
    Except.ok
      { dInner := cfg.expandF * cfg.dModel
        dtRankR := resolveDtRank cfg
        inProjOut := 2 * (cfg.expandF * cfg.dModel)
        xProjOut := resolveDtRank cfg + 2 * cfg.dState
        convKernel := cfg.dConv }

/-- The genuine activation functions of the source at `ℝ`: `torch.exp`,
`F.softplus(x) = log(1 + exp x)` and `SiLU(x) = x * sigmoid(x)
= x / (1 + exp(-x))`. -/
noncomputable def realAct : Act ℝ where
  exp := Real.exp
  softplus := fun x => Real.log (1 + Real.exp x)
  silu := fun x => x / (1 + Real.exp (-x))

/-- Lines 125-132 of `__init__` (S4D real initialization): `A` is
`arange(1, d_state+1)` repeated over the inner channels and
`A_log = log(A)`. -/
noncomputable def initALog (E N : ℕ) : Fin E → Fin N → ℝ :=
  fun _ n => Real.log (n.1 + 1)

/-- The realized decay rate at initialization: `A = -exp(A_log)`
(line 164 applied to the initial `A_log`). -/
noncomputable def initDecayRate (E N : ℕ) : Fin E → Fin N → ℝ :=
  fun e n => -Real.exp (initALog E N e n)

/-- Full mutable state visible to a `forward` or `step` call: the learned
parameters plus the two cache tensors. -/
structure LayerState (F : Type) (D E N K R : ℕ) where
  params : MambaParams F D E N K R
  convSt : ConvState F E K
  ssmSt : SsmState F E N

section StateWrap

variable {F : Type} [CommRing F] {D E N K R : ℕ}

/-- `Mamba.step` as a transformer of the full layer state.  The source writes
only through `conv_state.copy_`, `conv_state[:, :, -1] = x` and
`ssm_state.copy_` (lines 321, 322, 348); no parameter tensor is assigned. -/
def stepL (a : Act F) (s : LayerState F D E N K R) (h : Fin D → F) :
    (Fin D → F) × LayerState F D E N K R :=
  (step_out s.params a h s.convSt s.ssmSt,
   { params := s.params
     convSt := conv_roll s.convSt (step_x0 s.params h)
     ssmSt := step_ssm_new s.params a s.ssmSt (step_xa s.params a h s.convSt) })

/-- `Mamba.forward` as a transformer of the full layer state; `useCache`
selects whether an inference cache is attached.  The source writes only
through `conv_state.copy_` (line 238) and `ssm_state.copy_` (lines 273, 305),
and only when a cache is attached; no parameter tensor is assigned. -/
def forwardL (fl : Flags) (a : Act F) (nm : Norms F R N) (L : ℕ)
    (mask : Option (ℕ → F)) (u : ℕ → Fin D → F) (useCache : Bool)
    (s : LayerState F D E N K R) : FwdOut F D E × LayerState F D E N K R :=
  if useCache then
    match forward fl s.params a nm L mask u (some (s.convSt, s.ssmSt)) with
    | (o, some c2) => (o, { params := s.params, convSt := c2.1, ssmSt := c2.2 })
    | (o, none) => (o, s)
  else
    ((forward fl s.params a nm L mask u none).1, s)

end StateWrap

/-- Trivial activation record over `ℚ`, used to instantiate witnesses. -/
def qAct : Act ℚ := ⟨id, id, id⟩

/-- Trivial normalizers over `ℚ`, used to instantiate witnesses. -/
def qNorms : Norms ℚ 1 1 := ⟨id, id, id⟩

/-- Concrete parameter values over `ℚ` with all widths 1, used to instantiate
witnesses. -/
def qParams : MambaParams ℚ 1 1 1 1 1 where
  in_proj_wx := fun _ _ => 1
  in_proj_wz := fun _ _ => 1
  in_proj_bx := fun _ => 0
  in_proj_bz := fun _ => 0
  conv1d_w := fun _ _ => 1
  conv1d_b := fun _ => 0
  x_proj_wdt := fun _ _ => 1
  x_proj_wB := fun _ _ => 1
  x_proj_wC := fun _ _ => 1
  dt_proj_w := fun _ _ => 1
  dt_proj_b := fun _ => 0
  A_log := fun _ _ => 0
  D_skip := fun _ => 1
  out_proj_w := fun _ _ => 1
  out_proj_b := fun _ => 0

/-- Constant input sequence over `ℚ`, used to instantiate witnesses. -/
def qInput : ℕ → Fin 1 → ℚ := fun _ _ => 1

/-- Trivial normalizers over `ℝ` for the concrete counterexample. -/
def rNorms : Norms ℝ 1 1 := ⟨id, id, id⟩

/-- Concrete all-ones parameter values over `ℝ` with all widths 1, used in the
segment-boundary counterexample. -/
noncomputable def rParams : MambaParams ℝ 1 1 1 1 1 where
  in_proj_wx := fun _ _ => 1
  in_proj_wz := fun _ _ => 1
  in_proj_bx := fun _ => 0
  in_proj_bz := fun _ => 0
  conv1d_w := fun _ _ => 1
  conv1d_b := fun _ => 0
  x_proj_wdt := fun _ _ => 1
  x_proj_wB := fun _ _ => 1
  x_proj_wC := fun _ _ => 1
  dt_proj_w := fun _ _ => 1
  dt_proj_b := fun _ => 0
  A_log := fun _ _ => 0
  D_skip := fun _ => 1
  out_proj_w := fun _ _ => 1
  out_proj_b := fun _ => 0

/-- Constant all-ones input over `ℝ`: a packed batch row holding two
length-one logical sequences (segment boundary at position 1). -/
noncomputable def rInput : ℕ → Fin 1 → ℝ := fun _ _ => 1

section ConvTheorems

variable {F : Type} [CommRing F] {D E N K R : ℕ}

/-- Closed form of the decode-path ring buffer: after `t` single-step feeds,
slot `k` holds input `k + t - K` (or zero when that position precedes the
sequence start). -/
theorem convStatefulBuf_closed (v : ℕ → Fin E → F) (t : ℕ) :
    convStatefulBuf (K := K) v t
      = fun e k => if K ≤ k.1 + t then v (k.1 + t - K) e else 0 := by
  induction t with
  | zero =>
    funext e k
    have hk : ¬ K ≤ k.1 + 0 := by
      have := k.2
      omega
    simp only [convStatefulBuf]
    rw [if_neg hk]
  | succ t ih =>
    funext e k
    have hK : 0 < K := Nat.lt_of_le_of_lt (Nat.zero_le k.1) k.2
    by_cases hk : k.1 = K - 1
    · have h1 : K ≤ k.1 + (t + 1) := by omega
      have h2 : k.1 + (t + 1) - K = t := by omega
      simp only [convStatefulBuf, conv_roll]
      rw [if_pos hk, if_pos h1, h2]
    · have hlt : k.1 + 1 < K := by
        have := k.2
        omega
      have hmod : (k.1 + 1) % K = k.1 + 1 := Nat.mod_eq_of_lt hlt
      simp only [convStatefulBuf, conv_roll, if_neg hk, ih]
      simp only [hmod]
      have harith : k.1 + 1 + t = k.1 + (t + 1) := by omega
      rw [harith]

/-- The stateful convolution path of `step` agrees with the stateless causal
convolution of `forward` at every position. -/
theorem conv_stateful_eq_stateless (p : MambaParams F D E N K R) (a : Act F)
    (v : ℕ → Fin E → F) (t : ℕ) :
    convStatefulOut p a v t = fun e => fwd_conv p a v t e := by
  funext e
  simp only [convStatefulOut, step_conv_x, fwd_conv, convStatefulBuf_closed]
  congr 2
  apply Finset.sum_congr rfl
  intro k _
  have hK : 0 < K := Nat.lt_of_le_of_lt (Nat.zero_le k.1) k.2
  by_cases h : K ≤ k.1 + (t + 1)
  · have h2 : K - 1 ≤ t + k.1 := by omega
    have h3 : k.1 + (t + 1) - K = t + k.1 - (K - 1) := by omega
    rw [if_pos h, if_pos h2, h3, mul_comm]
  · have h2 : ¬ K - 1 ≤ t + k.1 := by omega
    rw [if_neg h, if_neg h2, zero_mul, mul_zero]

end ConvTheorems

/-- C4: feeding `K` single-step inputs one at a time through the stateful
convolution path of `step` (roll the ring buffer, append the new input, take
the weighted sum of the `K` buffered values plus bias, apply the activation)
reproduces the `K`-th output of the stateless causal convolution (left zero
pad by `K-1`, truncate to the original length, apply the activation) on the
same `K`-length sequence, for every input and every filter. -/
theorem C4_ring_buffer_matches_stateless {F : Type} [CommRing F]
    {D E N K R : ℕ} (p : MambaParams F D E N K R) (a : Act F)
    (v : ℕ → Fin E → F) :
    convStatefulOut p a v (K - 1) = fun e => fwd_conv p a v (K - 1) e :=
  conv_stateful_eq_stateless p a v (K - 1)

section EquivalenceChain

variable {F : Type} [CommRing F] {D E N K R : ℕ}
variable (fl : Flags) (p : MambaParams F D E N K R) (a : Act F)
variable (nm : Norms F R N) (u : ℕ → Fin D → F)

/-- The conv-cache component of the iterated decode states is the stateful
ring buffer fed with the expanded input branch. -/
theorem stepStates_conv (t : ℕ) :
    (stepStates p a u t).1 = convStatefulBuf (fun s => step_x0 p (u s)) t := by
  induction t with
  | zero => rfl
  | succ t ih =>
    show conv_roll (stepStates p a u t).1 (step_x0 p (u t)) = _
    rw [ih]
    rfl

/-- The convolved branch seen by the `(t+1)`-th decode step equals the
convolved branch of the full-sequence reference path at position `t`
(unmasked call). -/
theorem step_xa_eq_fwd (t : ℕ) :
    step_xa p a (u t) (stepStates p a u t).1
      = fun e => fwd_x2 p a none u t e := by
  rw [step_xa, stepStates_conv]
  show convStatefulOut p a (fun s => step_x0 p (u s)) t = _
  rw [conv_stateful_eq_stateless]
  rfl

/-- Realized step size agreement between the decode step and the
full-sequence path, with normalized-parameter mode off. -/
theorem step_dts_eq (hj : fl.jambaNorm = false) (t : ℕ) :
    step_dts p a (fun e => fwd_x2 p a none u t e)
      = fun e => fwd_dtsFull fl p a nm none u t e := by
  funext e
  simp only [step_dts, step_dtlin, step_dtraw, fwd_dtsFull, fwd_dts,
    fwd_dtlin, fwd_dtn, fwd_dtraw, hj, Bool.false_eq_true, if_false]

/-- Input-coupling agreement between the decode step and the full-sequence
path, with normalized-parameter mode off. -/
theorem step_Bv_eq (hj : fl.jambaNorm = false) (t : ℕ) :
    step_Bv p (fun e => fwd_x2 p a none u t e)
      = fun n => fwd_BsFull fl p a nm none u t n := by
  funext n
  simp only [step_Bv, fwd_BsFull, fwd_Bn, fwd_B0, hj, Bool.false_eq_true,
    if_false]

/-- Output-coupling agreement between the decode step and the full-sequence
path, with normalized-parameter mode off. -/
theorem step_Cv_eq (hj : fl.jambaNorm = false) (t : ℕ) :
    step_Cv p (fun e => fwd_x2 p a none u t e)
      = fun n => fwd_CsFull fl p a nm none u t n := by
  funext n
  simp only [step_Cv, fwd_CsFull, fwd_Cn, fwd_C0, hj, Bool.false_eq_true,
    if_false]

/-- The recurrence-state component of the iterated decode states equals the
scan state of the full-sequence reference path. -/
theorem stepStates_ssm (hj : fl.jambaNorm = false) (t : ℕ) :
    (stepStates p a u t).2 = fwd_scan fl p a nm none u t := by
  induction t with
  | zero => rfl
  | succ t ih =>
    show step_ssm_new p a (stepStates p a u t).2
        (step_xa p a (u t) (stepStates p a u t).1) = _
    rw [ih, step_xa_eq_fwd]
    funext e n
    show (fwd_scan fl p a nm none u t) e n
          * a.exp (step_dts p a (fun e => fwd_x2 p a none u t e) e
              * matA p a e n)
        + fwd_x2 p a none u t e
          * (step_dts p a (fun e => fwd_x2 p a none u t e) e
              * step_Bv p (fun e => fwd_x2 p a none u t e) n)
      = _
    rw [step_dts_eq fl p a nm u hj, step_Bv_eq fl p a nm u hj]
    rfl

/-- Per-position outputs of the sequential decode loop equal the outputs of
the full-sequence reference path. -/
theorem stepOut_eq_fwd (hj : fl.jambaNorm = false) (t : ℕ) :
    stepOutSeq p a u t = fun d => fwd_out fl p a nm none u t d := by
  funext d
  show (∑ e, p.out_proj_w d e *
      (step_y p (step_ssm_new p a (stepStates p a u t).2
          (step_xa p a (u t) (stepStates p a u t).1))
        (step_xa p a (u t) (stepStates p a u t).1) e
        * a.silu (step_z0 p (u t) e)))
      + p.out_proj_b d = _
  have hs : step_ssm_new p a (stepStates p a u t).2
      (step_xa p a (u t) (stepStates p a u t).1)
      = fwd_scan fl p a nm none u (t + 1) := by
    have := stepStates_ssm fl p a nm u hj (t + 1)
    rw [← this]
    rfl
  rw [hs, step_xa_eq_fwd]
  have hy : step_y p (fwd_scan fl p a nm none u (t + 1))
      (fun e => fwd_x2 p a none u t e)
      = fun e => fwd_y fl p a nm none u t e := by
    funext e
    show (∑ n, fwd_scan fl p a nm none u (t + 1) e n
          * step_Cv p (fun e => fwd_x2 p a none u t e) n)
        + p.D_skip e * fwd_x2 p a none u t e = _
    rw [step_Cv_eq fl p a nm u hj]
    rfl
  rw [hy]
  simp only [fwd_out, fwd_ygated, swiglu]
  cases hg : fl.gmuSave <;> simp [step_z0, fwd_xz_z]

/-- C1: for every input sequence of length `L`, every parameter setting (in
the default, non-normalized-parameter configuration) and an initially zero
conv/ssm cache, one `forward` call over the whole sequence with the cache
attached produces the same per-position outputs as `L` sequential `step`
calls against the same initially zero cache, and leaves the cache in the same
state.  In this exact-arithmetic model equality is on the nose, which implies
the 1e-4 relative-tolerance phrasing of the spec. -/
theorem C1_forward_equals_sequential_steps (L : ℕ)
    (hj : fl.jambaNorm = false) :
    (∀ t, t < L →
      (forward fl p a nm L none u
          (some (fun _ _ => 0, fun _ _ => 0))).1.outSeq t
        = stepOutSeq p a u t) ∧
    (forward fl p a nm L none u (some (fun _ _ => 0, fun _ _ => 0))).2
      = some (stepStates p a u L) := by
  by_cases hL : L = 1
  · subst hL
    constructor
    · intro t ht
      have ht0 : t = 0 := by omega
      subst ht0
      show (FwdOut.single
          (step_out p a (u 0) (fun _ _ => 0) (fun _ _ => 0))).outSeq 0 = _
      rfl
    · rfl
  · have hred : forward fl p a nm L none u
        (some (fun _ _ => 0, fun _ _ => 0))
        = (FwdOut.pair (fwd_out fl p a nm none u) (fwd_aux fl p a nm none u),
           some (fwd_conv_cache p none u L, fwd_scan fl p a nm none u L)) := by
      simp only [forward, if_neg hL]
    constructor
    · intro t ht
      rw [hred]
      show fwd_out fl p a nm none u t = stepOutSeq p a u t
      rw [stepOut_eq_fwd fl p a nm u hj]
    · rw [hred]
      have hconv : fwd_conv_cache (E := E) p none u L
          = (stepStates p a u L).1 := by
        rw [stepStates_conv, convStatefulBuf_closed]
        rfl
      rw [hconv, ← stepStates_ssm fl p a nm u hj L]

end EquivalenceChain

/-- Witness for C1 at a concrete configuration: widths 1, two time steps,
default flags, zero caches. -/
theorem C1_forward_equals_sequential_steps_witness :
    (Flags.mk false false).jambaNorm = false ∧
    ((0 : ℕ) < 2 ∧
      (forward (Flags.mk false false) qParams qAct qNorms 2 none qInput
          (some (fun _ _ => 0, fun _ _ => 0))).1.outSeq 0
        = stepOutSeq qParams qAct qInput 0) :=
  ⟨rfl,
   by decide,
   (C1_forward_equals_sequential_steps (Flags.mk false false) qParams qAct
      qNorms qInput 2 rfl).1 0 (by decide)⟩

/-- C2: for every parameter setting and every input, each realized decay
factor `exp(dt * A)` of the recurrence — with `dt = softplus(raw + bias)` and
`A = -exp(A_log)` — lies strictly in `(0, 1]`: the step size is strictly
positive, `A` is strictly negative, and the decay factor is positive and at
most 1, on both the decode path (`step_dts`) and the full-sequence path
(`fwd_dts`). -/
theorem C2_decay_factor_in_unit_interval {D E N K R : ℕ}
    (p : MambaParams ℝ D E N K R) (xa : Fin E → ℝ) (dtl : ℕ → Fin E → ℝ)
    (t : ℕ) (e : Fin E) (n : Fin N) :
    0 < step_dts p realAct xa e ∧
    matA p realAct e n < 0 ∧
    0 < realAct.exp (step_dts p realAct xa e * matA p realAct e n) ∧
    realAct.exp (step_dts p realAct xa e * matA p realAct e n) ≤ 1 ∧
    0 < fwd_dts p realAct dtl t e ∧
    0 < realAct.exp (fwd_dts p realAct dtl t e * matA p realAct e n) ∧
    realAct.exp (fwd_dts p realAct dtl t e * matA p realAct e n) ≤ 1 := by
  have hsp : ∀ x : ℝ, 0 < realAct.softplus x := by
    intro x
    have hx : (1 : ℝ) < 1 + Real.exp x := by
      have := Real.exp_pos x
      linarith
    exact Real.log_pos hx
  have hA : matA p realAct e n < 0 := by
    show -Real.exp (p.A_log e n) < 0
    have := Real.exp_pos (p.A_log e n)
    linarith
  have hstep : 0 < step_dts p realAct xa e := hsp _
  have hfwd : 0 < fwd_dts p realAct dtl t e := hsp _
  have hle : ∀ dt : ℝ, 0 < dt →
      realAct.exp (dt * matA p realAct e n) ≤ 1 := by
    intro dt hdt
    have hneg : dt * matA p realAct e n < 0 := mul_neg_of_pos_of_neg hdt hA
    have : Real.exp (dt * matA p realAct e n) < Real.exp 0 :=
      Real.exp_lt_exp.mpr hneg
    rw [Real.exp_zero] at this
    exact le_of_lt this
  exact ⟨hstep, hA, Real.exp_pos _, hle _ hstep, hfwd, Real.exp_pos _,
    hle _ hfwd⟩

/-- C6 counterexample: a configuration with state width 0 (non-positive)
constructs successfully — `__init__` performs no validation — contradicting
the claim that construction fails for non-positive state width. -/
theorem C6_counterexample_zero_state_width_succeeds :
    (MambaCfg.mk 8 0 4 2 none).dState = 0 ∧
    mambaInitShapes (MambaCfg.mk 8 0 4 2 none)
      = Except.ok (LayerShapes.mk 16 1 32 1 4) :=
  ⟨rfl, rfl⟩

/-- C6 amended: construction never raises a configuration error and performs
no width validation of its own; a non-positive state width does not cause
failure.  When `expand * d_model` is zero — the case in which `expand·D` is
not a positive integer — construction does fail, but with the `ValueError`
raised at line 86 by the `nn.Conv1d` groups-positivity check (this includes
`d_model = 0` with automatic rank, which fails there rather than at
line 105); when `expand * d_model` is positive but the resolved rank is
zero, construction fails with the Python `ZeroDivisionError` from
`dt_rank ** -0.5` at line 105.  Every other configuration with a positive
convolution width constructs successfully, whatever its state width.  None
of these failures is a configuration error. -/
theorem C6_amended_no_validation (cfg : MambaCfg) :
    (mambaInitShapes cfg ≠ Except.error MambaError.configurationError) ∧
    (cfg.expandF * cfg.dModel = 0 →
      mambaInitShapes cfg = Except.error MambaError.valueError) ∧
    (cfg.expandF * cfg.dModel ≠ 0 → resolveDtRank cfg = 0 →
      mambaInitShapes cfg = Except.error MambaError.zeroDivisionError) ∧
    (0 < cfg.dConv → cfg.expandF * cfg.dModel ≠ 0 → resolveDtRank cfg ≠ 0 →
      mambaInitShapes cfg = Except.ok
        (LayerShapes.mk (cfg.expandF * cfg.dModel) (resolveDtRank cfg)
          (2 * (cfg.expandF * cfg.dModel))
          (resolveDtRank cfg + 2 * cfg.dState) cfg.dConv)) := by
  refine ⟨?_, ?_, ?_, ?_⟩
  · by_cases h0 : cfg.expandF * cfg.dModel = 0
    · simp [mambaInitShapes, h0]
    · by_cases h1 : resolveDtRank cfg = 0 <;> simp [mambaInitShapes, h0, h1]
  · intro h0
    simp [mambaInitShapes, h0]
  · intro h0 h1
    simp [mambaInitShapes, h0, h1]
  · intro _ h0 h1
    simp [mambaInitShapes, h0, h1]

/-- Witness for the amended C6 at the concrete zero-state-width
configuration. -/
theorem C6_amended_no_validation_witness :
    (0 < (MambaCfg.mk 8 0 4 2 none).dConv ∧
     (MambaCfg.mk 8 0 4 2 none).expandF * (MambaCfg.mk 8 0 4 2 none).dModel ≠ 0 ∧
     resolveDtRank (MambaCfg.mk 8 0 4 2 none) ≠ 0) ∧
    mambaInitShapes (MambaCfg.mk 8 0 4 2 none)
      = Except.ok
          (LayerShapes.mk (2 * 8) (resolveDtRank (MambaCfg.mk 8 0 4 2 none))
            (2 * (2 * 8)) (resolveDtRank (MambaCfg.mk 8 0 4 2 none) + 2 * 0)
            4) :=
  ⟨⟨by decide, by decide, by decide⟩,
   (C6_amended_no_validation (MambaCfg.mk 8 0 4 2 none)).2.2.2 (by decide)
     (by decide) (by decide)⟩

/-- C8 counterexample: at state width 3 the realized initial decay magnitudes
are 1, 2, 3, and no common ratio relates consecutive magnitudes — the mapping
from state index to magnitude is not geometric. -/
theorem C8_counterexample_not_geometric :
    ¬ ∃ r : ℝ,
      initDecayRate 1 3 ⟨0, by omega⟩ ⟨1, by omega⟩
          = r * initDecayRate 1 3 ⟨0, by omega⟩ ⟨0, by omega⟩ ∧
        initDecayRate 1 3 ⟨0, by omega⟩ ⟨2, by omega⟩
          = r * initDecayRate 1 3 ⟨0, by omega⟩ ⟨1, by omega⟩ := by
  rintro ⟨r, h1, h2⟩
  have key : ∀ n : Fin 3, initDecayRate 1 3 ⟨0, by omega⟩ n
      = -((n.1 : ℝ) + 1) := by
    intro n
    show -Real.exp (Real.log ((n.1 : ℝ) + 1)) = _
    rw [Real.exp_log (by positivity)]
  rw [key, key] at h1
  rw [key, key] at h2
  norm_num at h1 h2
  linarith

/-- C8 amended: the realized initial decay rate at state index `n` is
`-(n+1)` for every inner channel: the magnitudes increase strictly
monotonically with the state index as an arithmetic (linear) progression
`1, 2, …, N`, not geometrically. -/
theorem C8_amended_linear_monotone {E N : ℕ} (e : Fin E) (n m : Fin N)
    (hnm : n.1 < m.1) :
    initDecayRate E N e n = -((n.1 : ℝ) + 1) ∧
    -initDecayRate E N e n < -initDecayRate E N e m := by
  have key : ∀ j : Fin N, initDecayRate E N e j = -((j.1 : ℝ) + 1) := by
    intro j
    show -Real.exp (Real.log ((j.1 : ℝ) + 1)) = _
    rw [Real.exp_log (by positivity)]
  refine ⟨key n, ?_⟩
  rw [key n, key m]
  have : (n.1 : ℝ) < (m.1 : ℝ) := by exact_mod_cast hnm
  linarith

/-- Witness for the amended C8 at state width 3, channel 0, indices 0 < 1. -/
theorem C8_amended_linear_monotone_witness :
    ((0 : ℕ) < 1) ∧
    (initDecayRate 1 3 ⟨0, by omega⟩ ⟨0, by omega⟩ = -(((0 : ℕ) : ℝ) + 1) ∧
     -initDecayRate 1 3 ⟨0, by omega⟩ ⟨0, by omega⟩
       < -initDecayRate 1 3 ⟨0, by omega⟩ ⟨1, by omega⟩) :=
  ⟨by decide,
   C8_amended_linear_monotone ⟨0, by omega⟩ ⟨0, by omega⟩ ⟨1, by omega⟩
     (by decide)⟩

/-- C7 amended: in the non-packed-kernel path, the expanded input branch is
zeroed at every masked-invalid position before the causal convolution is
applied, so invalid positions contribute nothing to the convolution input;
but segment identifiers are ignored on this path, and the carried recurrence
state is never reset: at every position — including the first position of a
new segment — the state is the unconditional recurrence update of the
state of the previous position. -/
theorem C7_amended_mask_zeroing_no_reset {F : Type} [CommRing F]
    {D E N K R : ℕ} (p : MambaParams F D E N K R) (a : Act F)
    (m : ℕ → F) (u : ℕ → Fin D → F) (t : ℕ) (hm : m t = 0)
    (x2 dts : ℕ → Fin E → F) (Bs : ℕ → Fin N → F) :
    (∀ e, fwd_x1 p (some m) u t e = 0) ∧
    (∀ s e n, scanState p a x2 dts Bs (s + 1) e n
      = scanState p a x2 dts Bs s e n * a.exp (dts s e * matA p a e n)
        + x2 s e * (dts s e * Bs s n)) :=
  ⟨fun e => by
      show fwd_xz_x p u t e * m t = 0
      rw [hm, mul_zero],
   fun s e n => rfl⟩

/-- Witness for the amended C7 at a concrete masked call over `ℚ`. -/
theorem C7_amended_mask_zeroing_no_reset_witness :
    ((fun _ : ℕ => (0 : ℚ)) 0 = 0) ∧
    (∀ e, fwd_x1 qParams (some (fun _ => (0 : ℚ))) qInput 0 e = 0) :=
  ⟨rfl,
   (C7_amended_mask_zeroing_no_reset qParams qAct (fun _ => 0) qInput 0 rfl
      (fun _ _ => 0) (fun _ _ => 0) (fun _ _ => 0)).1⟩

/-- C3: in the reference single-step recurrence path of `step`, given the
carried state, the new state and pre-gate output satisfy exactly
`s_t = s_{t-1} * exp(dt*A) + x_t * (dt*B_t)` elementwise over channel and
state index and `y_t = (sum over the state dimension of s_t * C_t) + D * x_t`
with `D` the per-channel skip scale; the returned (cache) ssm state is `s_t`,
and the call output is the output projection of `y_t` gated by `silu(z)`. -/
theorem C3_step_recurrence_equations {F : Type} [CommRing F] {D E N K R : ℕ}
    (p : MambaParams F D E N K R) (a : Act F) (h : Fin D → F)
    (cs : ConvState F E K) (ssm : SsmState F E N) :
    ((stepRef p a h cs ssm).2.2 = fun e n =>
      ssm e n * a.exp (step_dts p a (step_xa p a h cs) e * matA p a e n)
        + step_xa p a h cs e
          * (step_dts p a (step_xa p a h cs) e
              * step_Bv p (step_xa p a h cs) n)) ∧
    ((stepRef p a h cs ssm).1 = fun d =>
      (∑ e, p.out_proj_w d e *
        (((∑ n, (stepRef p a h cs ssm).2.2 e n * step_Cv p (step_xa p a h cs) n)
            + p.D_skip e * step_xa p a h cs e)
          * a.silu (step_z0 p h e)))
        + p.out_proj_b d) :=
  ⟨rfl, rfl⟩

/-- C5: the single-step decode operation fails with the shape error whenever
the time dimension of its input is not exactly 1, and on such a failure both
the convolution ring buffer and the recurrence state are returned unchanged
(the assert at line 315 precedes every cache mutation). -/
theorem C5_step_shape_guard {F : Type} [CommRing F] {D E N K R : ℕ}
    (p : MambaParams F D E N K R) (a : Act F) (L : ℕ) (u : ℕ → Fin D → F)
    (cs : ConvState F E K) (ssm : SsmState F E N) (hL : L ≠ 1) :
    stepChecked p a L u cs ssm
      = (Except.error MambaError.shapeError, cs, ssm) := by
  rw [stepChecked, if_neg hL]

/-- Witness for C5 at a concrete input: a two-token call fails with the shape
error and returns the caches untouched. -/
theorem C5_step_shape_guard_witness :
    (2 ≠ 1) ∧
    stepChecked qParams qAct 2 qInput (fun _ _ => 0) (fun _ _ => 0)
      = (Except.error MambaError.shapeError, fun _ _ => 0, fun _ _ => 0) :=
  ⟨by decide,
   C5_step_shape_guard qParams qAct 2 qInput (fun _ _ => 0) (fun _ _ => 0)
     (by decide)⟩

/-- C9: neither `forward` nor `step` mutates any learned parameter tensor of
the layer; every parameter equals its value before the call, and with no
cache attached `forward` leaves the whole layer state untouched.  In the
source the only in-place writes are `conv_state.copy_`,
`conv_state[:, :, -1] = x` and `ssm_state.copy_` (lines 238, 273, 305, 321,
322, 348), all targeting the caller-supplied cache tensors. -/
theorem C9_parameters_never_mutated {F : Type} [CommRing F] {D E N K R : ℕ}
    (fl : Flags) (a : Act F) (nm : Norms F R N) (L : ℕ)
    (mask : Option (ℕ → F)) (u : ℕ → Fin D → F) (h : Fin D → F)
    (useCache : Bool) (s : LayerState F D E N K R) :
    (stepL a s h).2.params = s.params ∧
    (forwardL fl a nm L mask u useCache s).2.params = s.params ∧
    (forwardL fl a nm L mask u false s).2 = s := by
  refine ⟨rfl, ?_, rfl⟩
  cases useCache
  · rfl
  · by_cases hL : L = 1
    · subst hL
      rfl
    · show (forwardL fl a nm L mask u true s).2.params = s.params
      simp [forwardL, forward, hL]

/-- C10: when `forward` is called with an inference cache attached and the
time dimension equals exactly 1, it delegates to the single-step path and
returns a bare single-output result rather than the `(out, aux)` pair, so the
auxiliary pre-gate export is never produced on this path even when
gated-memory-export mode (`gmu_save`) is enabled. -/
theorem C10_single_token_delegates_to_step {F : Type} [CommRing F]
    {D E N K R : ℕ} (fl : Flags) (p : MambaParams F D E N K R) (a : Act F)
    (nm : Norms F R N) (mask : Option (ℕ → F)) (u : ℕ → Fin D → F)
    (cs : ConvState F E K) (ssm : SsmState F E N) :
    forward fl p a nm 1 mask u (some (cs, ssm))
      = (FwdOut.single (step_out p a (u 0) cs ssm),
         some (conv_roll cs (step_x0 p (u 0)),
               step_ssm_new p a ssm (step_xa p a (u 0) cs))) :=
  rfl

/-- Convolved branch value of the concrete all-ones pipeline. -/
theorem rconst_x2 : ∀ t : ℕ, ∀ e : Fin 1,
    fwd_x2 rParams realAct none rInput t e = realAct.silu 1 := by
  intro t e
  simp [fwd_x2, maskApply, fwd_conv, fwd_x1, fwd_xz_x, rParams, rInput,
    Fin.sum_univ_one]

/-- Realized step size of the concrete all-ones pipeline. -/
theorem rconst_dts : ∀ t : ℕ, ∀ e : Fin 1,
    fwd_dtsFull (Flags.mk false false) rParams realAct rNorms none rInput t e
      = realAct.softplus (realAct.silu 1) := by
  intro t e
  simp only [fwd_dtsFull, fwd_dts, fwd_dtlin, fwd_dtn, Bool.false_eq_true,
    if_false, fwd_dtraw, Fin.sum_univ_one]
  rw [rconst_x2]
  simp [rParams]

/-- Input coupling of the concrete all-ones pipeline. -/
theorem rconst_Bs : ∀ t : ℕ, ∀ n : Fin 1,
    fwd_BsFull (Flags.mk false false) rParams realAct rNorms none rInput t n
      = realAct.silu 1 := by
  intro t n
  simp only [fwd_BsFull, fwd_Bn, Bool.false_eq_true, if_false, fwd_B0,
    Fin.sum_univ_one]
  rw [rconst_x2]
  simp [rParams]

/-- Output coupling of the concrete all-ones pipeline. -/
theorem rconst_Cs : ∀ t : ℕ, ∀ n : Fin 1,
    fwd_CsFull (Flags.mk false false) rParams realAct rNorms none rInput t n
      = realAct.silu 1 := by
  intro t n
  simp only [fwd_CsFull, fwd_Cn, Bool.false_eq_true, if_false, fwd_C0,
    Fin.sum_univ_one]
  rw [rconst_x2]
  simp [rParams]

/-- Scan state entering position 1 of the concrete pipeline: nonzero, carried
from position 0. -/
theorem rconst_scan1 : ∀ e n : Fin 1,
    fwd_scan (Flags.mk false false) rParams realAct rNorms none rInput 1 e n
      = realAct.silu 1 * (realAct.softplus (realAct.silu 1) * realAct.silu 1) := by
  intro e n
  show (0 : ℝ) * realAct.exp
        (fwd_dtsFull (Flags.mk false false) rParams realAct rNorms none rInput 0 e
          * matA rParams realAct e n)
      + fwd_x2 rParams realAct none rInput 0 e
        * (fwd_dtsFull (Flags.mk false false) rParams realAct rNorms none rInput 0 e
            * fwd_BsFull (Flags.mk false false) rParams realAct rNorms none rInput 0 n)
    = _
  rw [rconst_x2, rconst_dts, rconst_Bs, zero_mul, zero_add]

/-- Scan state after position 1 of the concrete pipeline. -/
theorem rconst_scan2 : ∀ e n : Fin 1,
    fwd_scan (Flags.mk false false) rParams realAct rNorms none rInput 2 e n
      = realAct.silu 1 * (realAct.softplus (realAct.silu 1) * realAct.silu 1)
          * Real.exp (realAct.softplus (realAct.silu 1) * (-1))
        + realAct.silu 1 * (realAct.softplus (realAct.silu 1) * realAct.silu 1) := by
  intro e n
  show fwd_scan (Flags.mk false false) rParams realAct rNorms none rInput 1 e n
        * realAct.exp
          (fwd_dtsFull (Flags.mk false false) rParams realAct rNorms none rInput 1 e
            * matA rParams realAct e n)
      + fwd_x2 rParams realAct none rInput 1 e
        * (fwd_dtsFull (Flags.mk false false) rParams realAct rNorms none rInput 1 e
            * fwd_BsFull (Flags.mk false false) rParams realAct rNorms none rInput 1 n)
    = _
  have hA : matA rParams realAct e n = -1 := by
    show -Real.exp (0 : ℝ) = -1
    rw [Real.exp_zero]
  rw [rconst_scan1, rconst_x2, rconst_dts, rconst_Bs, hA]
  rfl

/-- Recurrence output at position 0 of the concrete pipeline (equal to the
output of processing the second logical sequence alone from a zero state). -/
theorem rconst_y0 :
    fwd_y (Flags.mk false false) rParams realAct rNorms none rInput 0 ⟨0, by omega⟩
      = realAct.silu 1 * (realAct.softplus (realAct.silu 1) * realAct.silu 1)
          * realAct.silu 1
        + 1 * realAct.silu 1 := by
  show (∑ n : Fin 1,
      fwd_scan (Flags.mk false false) rParams realAct rNorms none rInput (0 + 1)
        ⟨0, by omega⟩ n
      * fwd_CsFull (Flags.mk false false) rParams realAct rNorms none rInput 0 n)
    + rParams.D_skip ⟨0, by omega⟩ * fwd_x2 rParams realAct none rInput 0 ⟨0, by omega⟩
    = _
  rw [Fin.sum_univ_one]
  rw [rconst_scan1, rconst_Cs, rconst_x2]
  rfl

/-- Recurrence output at position 1 of the concrete pipeline. -/
theorem rconst_y1 :
    fwd_y (Flags.mk false false) rParams realAct rNorms none rInput 1 ⟨0, by omega⟩
      = (realAct.silu 1 * (realAct.softplus (realAct.silu 1) * realAct.silu 1)
          * Real.exp (realAct.softplus (realAct.silu 1) * (-1))
         + realAct.silu 1 * (realAct.softplus (realAct.silu 1) * realAct.silu 1))
          * realAct.silu 1
        + 1 * realAct.silu 1 := by
  show (∑ n : Fin 1,
      fwd_scan (Flags.mk false false) rParams realAct rNorms none rInput (1 + 1)
        ⟨0, by omega⟩ n
      * fwd_CsFull (Flags.mk false false) rParams realAct rNorms none rInput 1 n)
    + rParams.D_skip ⟨0, by omega⟩ * fwd_x2 rParams realAct none rInput 1 ⟨0, by omega⟩
    = _
  rw [Fin.sum_univ_one]
  rw [rconst_scan2, rconst_Cs, rconst_x2]
  rfl

/-- C7 counterexample: concrete packed row (two length-one logical sequences
with the segment boundary at position 1; all-ones inputs and weights, widths
1): the recurrence output at position 1 — the first position of the second
segment — differs from the output of processing that segment alone from a
fresh zero state (position 0 of the same constant pipeline), because the
carried state is multiplied by the decay factor and kept, not reset, at the
boundary. -/
theorem C7_counterexample_state_carried_across_boundary :
    fwd_y (Flags.mk false false) rParams realAct rNorms none rInput 1
      ≠ fwd_y (Flags.mk false false) rParams realAct rNorms none rInput 0 := by
  intro hcontra
  have h := congrFun hcontra ⟨0, by omega⟩
  rw [rconst_y1, rconst_y0] at h
  have hc : 0 < realAct.silu 1 := by
    show (0:ℝ) < 1 / (1 + Real.exp (-1))
    positivity
  have hs : 0 < realAct.softplus (realAct.silu 1) := by
    show (0:ℝ) < Real.log (1 + Real.exp (realAct.silu 1))
    have := Real.exp_pos (realAct.silu 1)
    have h1 : (1:ℝ) < 1 + Real.exp (realAct.silu 1) := by linarith
    exact Real.log_pos h1
  have hE : 0 < Real.exp (realAct.softplus (realAct.silu 1) * (-1)) :=
    Real.exp_pos _
  nlinarith [mul_pos (mul_pos (mul_pos hc (mul_pos hs hc)) hE) hc]
